import Mathlib

/-!
Verification of the AIrsenal web dashboard job engine (`src/web_app.py`).

Shallow embedding of the asynchronous job-execution engine of the
AIrsenal web dashboard: the job record, the progress classifier
(`parse_process_output`), the worker (`run_airsenal_process`) and the
HTTP endpoints (`run_process`, `get_all_status`, `get_process_logs`,
`clear_all_logs`).

Modelling conventions:
* Python dicts (`processes`, `output_logs`) become association lists
  `List (String × _)` with first-match lookup; assignment overwrites the
  first matching key in place, or appends a fresh binding.
* Wall-clock timestamps (`datetime.now()`) are external nondeterministic
  inputs: the worker takes the string used in log-line prefixes and the
  `Nat` instants stored in `start_time` / `end_time` as parameters.
* The child process is an external collaborator: its behaviour enters the
  worker as a `ProcResult` — either the list of raw lines it produced
  followed by an exit code, or the lines produced before an exception was
  raised while spawning or reading, with the exception message.
* Statuses are the exact strings the Python code stores
  (`'Running...'`, `'Completed successfully'`, `'Failed with code N'`,
  `'Error: msg'`); the dashboard distinguishes them by string equality.
* Presentation-only fields of the action catalogue (`description`,
  `command`, `icon`, `color`, `estimated_time`) are not consulted by any
  of the modelled control logic, which only reads `name`; they are
  omitted from `ProcessInfo`.
-/

set_option autoImplicit false

namespace WebApp

/-- One entry of `AIRSENAL_PROCESSES`; only `name` is read by the engine. -/
structure ProcessInfo where
  name : String
  deriving DecidableEq, Repr

/-- The fixed action catalogue `AIRSENAL_PROCESSES` (keys and display names,
in source order). -/
def AIRSENAL_PROCESSES : List (String × ProcessInfo) :=
  [("setup_db_full", ⟨"Setup Database (Full)"⟩),
   ("setup_db_minimal", ⟨"Setup Database (Minimal)"⟩),
   ("update_db_lite", ⟨"Update Database (Lite)"⟩),
   ("run_predictions", ⟨"Run Predictions (Full)"⟩),
   ("run_predictions_simple", ⟨"Simple Predictions"⟩),
   ("optimize_team", ⟨"Optimize Team"⟩),
   ("check_data", ⟨"Check Data"⟩),
   ("check_db_status", ⟨"Check DB Status"⟩),
   ("get_transfers", ⟨"Get Transfer Suggestions"⟩)]

/-- The per-job record stored in the `processes` dict:
`{'status', 'progress', 'current_step', 'start_time', 'end_time'}`. -/
structure JobRecord where
  status : String
  progress : Int
  current_step : String
  start_time : Nat
  end_time : Option Nat
  deriving DecidableEq, Repr

/-- The global mutable state: the `processes` dict and the `output_logs`
dict, both keyed by the process id (the action name). -/
structure AppState where
  processes : List (String × JobRecord)
  output_logs : List (String × List String)
  deriving DecidableEq, Repr

/-- The empty initial state (no job ever dispatched). -/
def initialAppState : AppState := ⟨[], []⟩

/-! ## Association lists with Python-dict semantics -/

/-- `k in d` / `d[k]`: first binding of key `k`, if any. -/
def lookupA {α : Type} (k : String) : List (String × α) → Option α
  | [] => none
  | p :: t => if p.1 = k then some p.2 else lookupA k t

/-- `d[k] = v`: overwrite the binding of `k` in place, or append it. -/
def setA {α : Type} : List (String × α) → String → α → List (String × α)
  | [], k, v => [(k, v)]
  | p :: t, k, v => if p.1 = k then (k, v) :: t else p :: setA t k v

/-- In-place mutation of the value bound to `k` (no-op when `k` is absent,
matching Python where the call sites guarantee presence). -/
def modifyA {α : Type} : List (String × α) → String → (α → α) → List (String × α)
  | [], _, _ => []
  | p :: t, k, f => if p.1 = k then (k, f p.2) :: t else p :: modifyA t k f

theorem lookupA_setA_self {α : Type} (m : List (String × α)) (k : String) (v : α) :
    lookupA k (setA m k v) = some v := by
  induction m with
  | nil => simp [setA, lookupA]
  | cons p t ih =>
    by_cases h : p.1 = k
    · simp [setA, h, lookupA]
    · simp [setA, h, lookupA, ih]

theorem lookupA_setA_ne {α : Type} (m : List (String × α)) (k k' : String) (v : α)
    (h : k' ≠ k) : lookupA k' (setA m k v) = lookupA k' m := by
  have hk : ¬ k = k' := fun hh => h hh.symm
  induction m with
  | nil => simp [setA, lookupA, hk]
  | cons p t ih =>
    by_cases hp : p.1 = k
    · simp [setA, hp, lookupA, hk]
    · simp only [setA, hp, if_false, lookupA]
      by_cases hp' : p.1 = k'
      · simp [hp']
      · simp [hp', ih]

theorem lookupA_modifyA_self {α : Type} (m : List (String × α)) (k : String) (f : α → α) :
    lookupA k (modifyA m k f) = (lookupA k m).map f := by
  induction m with
  | nil => simp [modifyA, lookupA]
  | cons p t ih =>
    by_cases h : p.1 = k
    · simp [modifyA, h, lookupA]
    · simp [modifyA, h, lookupA, ih]

theorem lookupA_modifyA_ne {α : Type} (m : List (String × α)) (k k' : String) (f : α → α)
    (h : k' ≠ k) : lookupA k' (modifyA m k f) = lookupA k' m := by
  have hk : ¬ k = k' := fun hh => h hh.symm
  induction m with
  | nil => simp [modifyA]
  | cons p t ih =>
    by_cases hp : p.1 = k
    · simp [modifyA, hp, lookupA, hk]
    · simp only [modifyA, hp, if_false, lookupA]
      by_cases hp' : p.1 = k'
      · simp [hp']
      · simp [hp', ih]

/-! ## Strings: Python `in` (substring) and slicing `[-n:]` -/

/-- Does the character list `hay` contain `needle` as a contiguous run?
(Checks a prefix match at every suffix of `hay`.) -/
def listContainsAux (needle : List Char) : List Char → Bool
  | [] => needle.isEmpty
  | c :: t => needle.isPrefixOf (c :: t) || listContainsAux needle t

/-- Python `needle in hay` on strings. -/
def strContains (hay needle : String) : Bool :=
  listContainsAux needle.data hay.data

/-- Python `line.lower()` (ASCII case folding; the keyword table is
ASCII-only, so this matches CPython on every relevant character). -/
def strLower (s : String) : String :=
  ⟨s.data.map Char.toLower⟩

/-- The whitespace characters removed by Python `str.strip()`. -/
def isSpaceChar (c : Char) : Bool :=
  c = ' ' || c = '\t' || c = '\n' || c = '\r' || c = Char.ofNat 11 || c = Char.ofNat 12

/-- Python `line.strip()`: remove leading and trailing whitespace. -/
def strStrip (s : String) : String :=
  ⟨((s.data.dropWhile isSpaceChar).reverse.dropWhile isSpaceChar).reverse⟩

/-- Python `l[-n:]`: the last `n` elements (all of them when `l` is shorter). -/
def lastN {α : Type} (n : Nat) (l : List α) : List α :=
  l.drop (l.length - n)

theorem length_lastN {α : Type} (n : Nat) (l : List α) : (lastN n l).length ≤ n := by
  simp only [lastN, List.length_drop]
  omega

theorem lastN_of_short {α : Type} (n : Nat) (l : List α) (h : l.length ≤ n) :
    lastN n l = l := by
  simp only [lastN]
  have : l.length - n = 0 := by omega
  simp [this]

/-! ## Progress classifier (`parse_process_output`) -/

/-- The ordered keyword → percentage table of `parse_process_output`
(Python dict literal; insertion order is iteration order). -/
def progress_keywords : List (String × Int) :=
  [("starting", 5), ("initializing", 10), ("setup", 15), ("fetching", 25),
   ("processing", 40), ("updating", 60), ("calculating", 70), ("optimizing", 80),
   ("finishing", 90), ("complete", 100), ("done", 100), ("finished", 100)]

/-- The record update performed by `parse_process_output` for one line:
the first keyword contained in the lowercased line (if any) sets
`progress := min p 100` and `current_step := line.strip()`. -/
def classify_line (r : JobRecord) (line : String) : JobRecord :=
  match progress_keywords.find? (fun kv => strContains (strLower line) kv.1) with
  | some kv => { r with progress := min kv.2 100, current_step := strStrip line }
  | none => r

/-- `parse_process_output(process_id, line)`: no-op when the id is not in
`processes`, otherwise applies `classify_line` to its record. -/
def parse_process_output (s : AppState) (process_id : String) (line : String) : AppState :=
  match lookupA process_id s.processes with
  | none => s
  | some _ => { s with processes := modifyA s.processes process_id (fun r => classify_line r line) }

/-! ## Worker (`run_airsenal_process`) -/

/-- Behaviour of the external child process, as seen by the worker:
either it produced `outputs` (the raw `readline` results, in order) and
exited with `code`, or an exception with message `msg` was raised while
spawning or reading, after `outputs` had been read. -/
inductive ProcResult where
  | exits (outputs : List String) (code : Int)
  | raises (outputs : List String) (msg : String)
  deriving DecidableEq, Repr

/-- Append one entry to a job's output log. -/
def appendLog (s : AppState) (process_id : String) (entry : String) : AppState :=
  { s with output_logs := modifyA s.output_logs process_id (fun ls => ls ++ [entry]) }

/-- The dict literal assigned to `processes[pid]` at worker start. -/
def freshRecord (info : ProcessInfo) (t0 : Nat) : JobRecord :=
  { status := "Running...", progress := 0,
    current_step := "Starting " ++ info.name ++ "...",
    start_time := t0, end_time := none }

/-- `processes[pid] = {...}` at worker start, plus
`if pid not in output_logs: output_logs[pid] = []`. -/
def init_job (s : AppState) (process_id : String) (info : ProcessInfo) (t0 : Nat) : AppState :=
  let s1 : AppState := { s with processes := setA s.processes process_id (freshRecord info t0) }
  match lookupA process_id s1.output_logs with
  | some _ => s1
  | none => { s1 with output_logs := setA s1.output_logs process_id [] }

/-- One iteration of the worker's read loop for one `readline` result:
skipped when falsy (empty string); otherwise the stripped line is appended
to the log with a timestamp prefix, fed to `parse_process_output`, and the
log is truncated to its last 50 entries when it exceeds 50. -/
def read_one_line (tstamp : String) (process_id : String) (s : AppState) (output : String) :
    AppState :=
  if output = "" then s
  else
    let line := strStrip output
    let s1 := appendLog s process_id ("[" ++ tstamp ++ "] " ++ line)
    let s2 := parse_process_output s1 process_id line
    let trunc : List String → List String := fun ls => if ls.length > 50 then lastN 50 ls else ls
    { s2 with output_logs := modifyA s2.output_logs process_id trunc }

/-- The worker up to (but not including) process exit: job initialisation,
the "🚀 Starting" log entry, and the read loop over `outputs`. While in
this portion of the worker the job has not been finalised. -/
def start_and_read (tstamp : String) (t0 : Nat) (s : AppState) (process_id : String)
    (info : ProcessInfo) (outputs : List String) : AppState :=
  let s1 := init_job s process_id info t0
  let s2 := appendLog s1 process_id ("[" ++ tstamp ++ "] 🚀 Starting " ++ info.name ++ "...")
  outputs.foldl (read_one_line tstamp process_id) s2

/-- `run_airsenal_process(process_id)` — the whole worker body, as a
function of the child-process behaviour `res` and the wall-clock inputs
(`tstamp` for log-line prefixes, `t0` the start instant, `t1` the instant
the terminal transition happens). Returns early when the id is not in
`AIRSENAL_PROCESSES`. -/
def run_airsenal_process (tstamp : String) (t0 t1 : Nat) (s : AppState)
    (process_id : String) (res : ProcResult) : AppState :=
  match lookupA process_id AIRSENAL_PROCESSES with
  | none => s
  | some info =>
    match res with
    | .exits outputs code =>
      let s3 := start_and_read tstamp t0 s process_id info outputs
      let fEnd : JobRecord → JobRecord := fun r => { r with end_time := some t1 }
      let s4 := { s3 with processes := modifyA s3.processes process_id fEnd }
      if code = 0 then
        let fOk : JobRecord → JobRecord := fun r =>
          { r with status := "Completed successfully", progress := 100,
                   current_step := info.name ++ " completed" }
        let s5 := { s4 with processes := modifyA s4.processes process_id fOk }
        appendLog s5 process_id
          ("[" ++ tstamp ++ "] ✅ " ++ info.name ++ " completed successfully")
      else
        let fFail : JobRecord → JobRecord := fun r =>
          { r with status := "Failed with code " ++ toString code, progress := 0,
                   current_step := info.name ++ " failed" }
        let s5 := { s4 with processes := modifyA s4.processes process_id fFail }
        appendLog s5 process_id
          ("[" ++ tstamp ++ "] ❌ " ++ info.name ++ " failed with code " ++ toString code)
    | .raises outputs msg =>
      let s3 := start_and_read tstamp t0 s process_id info outputs
      let fErr : JobRecord → JobRecord := fun r =>
        { r with status := "Error: " ++ msg, progress := 0,
                 current_step := "Error occurred", end_time := some t1 }
      let s4 := { s3 with processes := modifyA s3.processes process_id fErr }
      appendLog s4 process_id ("[" ++ tstamp ++ "] ❌ Error: " ++ msg)

/-! ## HTTP endpoints -/

/-- The JSON response shapes produced by the modelled endpoints:
`{"status": ..., "message": ...}` or `{"logs": [...]}`. -/
inductive ApiResponse where
  | statusMsg (status : String) (message : String)
  | logsOnly (logs : List String)
  deriving DecidableEq, Repr

/-- The guard used by `/run-process`:
`process_id in processes and processes[process_id]['status'] == 'Running...'`. -/
def is_running (s : AppState) (process_id : String) : Bool :=
  match lookupA process_id s.processes with
  | some r => r.status = "Running..."
  | none => false

/-- `POST /run-process/<process_id>`: validation and dispatch. Returns the
JSON response, the (unmodified) global state — the endpoint itself mutates
nothing — and whether a background worker thread was started. -/
def run_process (s : AppState) (process_id : String) : ApiResponse × AppState × Bool :=
  match lookupA process_id AIRSENAL_PROCESSES with
  | none => (.statusMsg "error" "Invalid process ID", s, false)
  | some info =>
    if is_running s process_id then
      (.statusMsg "error" "Process already running", s, false)
    else
      (.statusMsg "success" (info.name ++ " started"), s, true)

/-- `GET /status/all`: the full `processes` dict and, per job, the last 20
retained log lines (the `transfers` field is domain data, out of scope). -/
def get_all_status (s : AppState) :
    List (String × JobRecord) × List (String × List String) :=
  (s.processes, s.output_logs.map (fun p => (p.1, lastN 20 p.2)))

/-- `GET /logs/<process_id>`: the job's last 50 retained log lines, or
`{"logs": []}` when the id is not in `output_logs`. -/
def get_process_logs (s : AppState) (process_id : String) : ApiResponse :=
  match lookupA process_id s.output_logs with
  | some logs => .logsOnly (lastN 50 logs)
  | none => .logsOnly []

/-- `POST /clear-logs`: `output_logs = {}`. -/
def clear_all_logs (s : AppState) : AppState × ApiResponse :=
  ({ s with output_logs := [] }, .statusMsg "success" "All logs cleared")

/-- Is an `ApiResponse` an error report (`{"status": "error", ...}`)? -/
def is_error_response : ApiResponse → Bool
  | .statusMsg "error" _ => true
  | _ => false

/-- Every record of a `processes` map has `progress` within `[0, 100]`. -/
def progOKl (m : List (String × JobRecord)) : Prop :=
  ∀ k r, lookupA k m = some r → 0 ≤ r.progress ∧ r.progress ≤ 100

/-- Every record of the state has `progress` within `[0, 100]`. -/
def progOK (s : AppState) : Prop :=
  progOKl s.processes

/-! ## Lemmas: the classifier -/

theorem keywords_bound : ∀ kv ∈ progress_keywords, (0 : Int) ≤ kv.2 ∧ kv.2 ≤ 100 := by
  decide

theorem classify_line_status (r : JobRecord) (line : String) :
    (classify_line r line).status = r.status := by
  unfold classify_line
  split <;> rfl

theorem classify_line_start_time (r : JobRecord) (line : String) :
    (classify_line r line).start_time = r.start_time := by
  unfold classify_line
  split <;> rfl

theorem classify_line_end_time (r : JobRecord) (line : String) :
    (classify_line r line).end_time = r.end_time := by
  unfold classify_line
  split <;> rfl

theorem classify_line_progress (r : JobRecord) (line : String) :
    (classify_line r line).progress = r.progress ∨
      ∃ kv, kv ∈ progress_keywords ∧ strContains (strLower line) kv.1 = true ∧
        (classify_line r line).progress = min kv.2 100 := by
  unfold classify_line
  split
  next kv heq =>
    refine Or.inr ⟨kv, List.mem_of_find?_eq_some heq, ?_, rfl⟩
    simpa using List.find?_some heq
  next => exact Or.inl rfl

theorem classify_line_progress_bound (r : JobRecord) (line : String)
    (h0 : 0 ≤ r.progress) (h1 : r.progress ≤ 100) :
    0 ≤ (classify_line r line).progress ∧ (classify_line r line).progress ≤ 100 := by
  rcases classify_line_progress r line with h | ⟨kv, hmem, _, h⟩
  · rw [h]; exact ⟨h0, h1⟩
  · rw [h]
    have hb := keywords_bound kv hmem
    exact ⟨le_min hb.1 (by norm_num), min_le_right _ _⟩

/-! ## Lemmas: state plumbing -/

theorem appendLog_processes (s : AppState) (pid e : String) :
    (appendLog s pid e).processes = s.processes := rfl

theorem init_job_processes (s : AppState) (pid : String) (info : ProcessInfo) (t0 : Nat) :
    (init_job s pid info t0).processes = setA s.processes pid (freshRecord info t0) := by
  cases h : lookupA pid s.output_logs with
  | none => simp [init_job, h]
  | some v => simp [init_job, h]

theorem parse_lookup_self (s : AppState) (pid line : String) :
    lookupA pid (parse_process_output s pid line).processes
      = (lookupA pid s.processes).map (fun r => classify_line r line) := by
  unfold parse_process_output
  cases h : lookupA pid s.processes with
  | none => simp [h]
  | some r => simp [h, lookupA_modifyA_self]

theorem parse_lookup_ne (s : AppState) (pid k line : String) (hk : k ≠ pid) :
    lookupA k (parse_process_output s pid line).processes = lookupA k s.processes := by
  unfold parse_process_output
  cases h : lookupA pid s.processes with
  | none => simp [h]
  | some r => simp [h, lookupA_modifyA_ne _ _ _ _ hk]

/-- One read-loop iteration either leaves a key's record untouched or
replaces it with its classification under the stripped line. -/
theorem read_one_line_cases (ts pid : String) (s : AppState) (o : String) (k : String) :
    lookupA k (read_one_line ts pid s o).processes = lookupA k s.processes ∨
      ∃ r, lookupA k s.processes = some r ∧
        lookupA k (read_one_line ts pid s o).processes = some (classify_line r (strStrip o)) := by
  unfold read_one_line
  by_cases ho : o = ""
  · simp [ho]
  · simp only [ho, if_false]
    by_cases hk : k = pid
    · subst hk
      rw [parse_lookup_self, appendLog_processes]
      cases h : lookupA k s.processes with
      | none => simp
      | some r => exact Or.inr ⟨r, rfl, rfl⟩
    · rw [parse_lookup_ne _ _ _ _ hk, appendLog_processes]
      exact Or.inl rfl

theorem read_one_line_status (ts pid : String) (s : AppState) (o : String) (k : String) :
    (lookupA k (read_one_line ts pid s o).processes).map JobRecord.status
      = (lookupA k s.processes).map JobRecord.status := by
  rcases read_one_line_cases ts pid s o k with h | ⟨r, hr, h⟩
  · rw [h]
  · rw [h, hr]
    simp [classify_line_status]

theorem foldl_read_status (ts pid k : String) (outputs : List String) :
    ∀ s : AppState,
      (lookupA k (outputs.foldl (read_one_line ts pid) s).processes).map JobRecord.status
        = (lookupA k s.processes).map JobRecord.status := by
  induction outputs with
  | nil => intro s; rfl
  | cons o t ih =>
    intro s
    rw [List.foldl_cons, ih, read_one_line_status]

/-- Throughout `start_and_read` — i.e. from job initialisation until the
child process exits or raises — the job's status is `'Running...'`. -/
theorem start_and_read_status (tstamp : String) (t0 : Nat) (s : AppState)
    (pid : String) (info : ProcessInfo) (outputs : List String) :
    (lookupA pid (start_and_read tstamp t0 s pid info outputs).processes).map
        JobRecord.status = some "Running..." := by
  unfold start_and_read
  rw [foldl_read_status, appendLog_processes, init_job_processes, lookupA_setA_self]
  rfl

theorem start_and_read_exists (tstamp : String) (t0 : Nat) (s : AppState)
    (pid : String) (info : ProcessInfo) (outputs : List String) :
    ∃ r, lookupA pid (start_and_read tstamp t0 s pid info outputs).processes = some r
      ∧ r.status = "Running..." := by
  have h := start_and_read_status tstamp t0 s pid info outputs
  cases hl : lookupA pid (start_and_read tstamp t0 s pid info outputs).processes with
  | none => rw [hl] at h; cases h
  | some r =>
    rw [hl] at h
    simp only [Option.map] at h
    exact ⟨r, rfl, Option.some.inj h⟩

/-! ## Lemmas: worker finalisation -/

/-- On normal child-process exit the worker overwrites the job record kept
through the read loop with the terminal fields dictated by the exit code. -/
theorem run_exits_lookup (tstamp : String) (t0 t1 : Nat) (s : AppState)
    (pid : String) (info : ProcessInfo) (outputs : List String) (code : Int)
    (hcat : lookupA pid AIRSENAL_PROCESSES = some info) :
    ∃ rmid, lookupA pid (start_and_read tstamp t0 s pid info outputs).processes = some rmid
      ∧ lookupA pid
          (run_airsenal_process tstamp t0 t1 s pid (.exits outputs code)).processes
        = some (if code = 0 then
            { rmid with end_time := some t1, status := "Completed successfully",
                        progress := 100, current_step := info.name ++ " completed" }
          else
            { rmid with end_time := some t1,
                        status := "Failed with code " ++ toString code,
                        progress := 0, current_step := info.name ++ " failed" }) := by
  obtain ⟨rmid, hmid, _⟩ := start_and_read_exists tstamp t0 s pid info outputs
  refine ⟨rmid, hmid, ?_⟩
  unfold run_airsenal_process
  rw [hcat]
  by_cases hc : code = 0
  · simp only [hc, if_pos, if_true, appendLog_processes]
    rw [lookupA_modifyA_self, lookupA_modifyA_self, hmid]
    rfl
  · simp only [hc, if_neg, if_false, appendLog_processes]
    rw [lookupA_modifyA_self, lookupA_modifyA_self, hmid]
    rfl

/-- On an exception while spawning or reading, the worker overwrites the
job record with the terminal `Error` fields. -/
theorem run_raises_lookup (tstamp : String) (t0 t1 : Nat) (s : AppState)
    (pid : String) (info : ProcessInfo) (outputs : List String) (msg : String)
    (hcat : lookupA pid AIRSENAL_PROCESSES = some info) :
    ∃ rmid, lookupA pid (start_and_read tstamp t0 s pid info outputs).processes = some rmid
      ∧ lookupA pid
          (run_airsenal_process tstamp t0 t1 s pid (.raises outputs msg)).processes
        = some { rmid with status := "Error: " ++ msg, progress := 0,
                           current_step := "Error occurred", end_time := some t1 } := by
  obtain ⟨rmid, hmid, _⟩ := start_and_read_exists tstamp t0 s pid info outputs
  refine ⟨rmid, hmid, ?_⟩
  unfold run_airsenal_process
  rw [hcat]
  simp only [appendLog_processes]
  rw [lookupA_modifyA_self, hmid]
  rfl

/-! ## Lemmas: strings -/

theorem isPrefixOf_self (l : List Char) : l.isPrefixOf l = true := by
  induction l with
  | nil => rfl
  | cons c t ih => simp [List.isPrefixOf, ih]

theorem listContainsAux_suffix (n : List Char) :
    ∀ h : List Char, listContainsAux n (h ++ n) = true := by
  intro h
  induction h with
  | nil =>
    cases n with
    | nil => rfl
    | cons c t => simp [listContainsAux, isPrefixOf_self]
  | cons c hs ih => simp [listContainsAux, ih]

/-- A string always contains its own suffix (Python `b in a + b`). -/
theorem strContains_append_right (a b : String) : strContains (a ++ b) b = true := by
  unfold strContains
  rw [String.data_append]
  exact listContainsAux_suffix b.data a.data

/-- An `'Error: ...'` status is never the `'Running...'` status the
dashboard and dispatcher test for. -/
theorem error_status_ne_running (msg : String) : ("Error: " ++ msg) ≠ "Running..." := by
  intro h
  have h2 : ("Error: " ++ msg).data = ("Running..." : String).data := by rw [h]
  rw [String.data_append] at h2
  have h3 : ("Error: " : String).data = ['E', 'r', 'r', 'o', 'r', ':', ' '] := rfl
  have h4 : ("Running..." : String).data
      = ['R', 'u', 'n', 'n', 'i', 'n', 'g', '.', '.', '.'] := rfl
  rw [h3, h4] at h2
  simp at h2

/-- A `'Failed with code ...'` status is never `'Running...'` either. -/
theorem failed_status_ne_running (c : Int) :
    ("Failed with code " ++ toString c) ≠ "Running..." := by
  intro h
  have h2 : ("Failed with code " ++ toString c).data = ("Running..." : String).data := by
    rw [h]
  rw [String.data_append] at h2
  have h3 : ("Failed with code " : String).data
      = ['F', 'a', 'i', 'l', 'e', 'd', ' ', 'w', 'i', 't', 'h', ' ',
         'c', 'o', 'd', 'e', ' '] := rfl
  have h4 : ("Running..." : String).data
      = ['R', 'u', 'n', 'n', 'i', 'n', 'g', '.', '.', '.'] := rfl
  rw [h3, h4] at h2
  simp at h2

/-! ## Lemmas: the progress invariant -/

theorem progOKl_setA (m : List (String × JobRecord)) (pid : String) (r0 : JobRecord)
    (h0 : 0 ≤ r0.progress ∧ r0.progress ≤ 100) (hm : progOKl m) :
    progOKl (setA m pid r0) := by
  intro k r hr
  by_cases hk : k = pid
  · subst hk
    rw [lookupA_setA_self] at hr
    have h := Option.some.inj hr
    subst h
    exact h0
  · rw [lookupA_setA_ne _ _ _ _ hk] at hr
    exact hm k r hr

theorem progOKl_modifyA (m : List (String × JobRecord)) (pid : String)
    (f : JobRecord → JobRecord)
    (hf : ∀ r, 0 ≤ r.progress ∧ r.progress ≤ 100 →
      0 ≤ (f r).progress ∧ (f r).progress ≤ 100)
    (hm : progOKl m) : progOKl (modifyA m pid f) := by
  intro k r hr
  by_cases hk : k = pid
  · subst hk
    rw [lookupA_modifyA_self] at hr
    cases hl : lookupA k m with
    | none => rw [hl] at hr; cases hr
    | some r0 =>
      rw [hl] at hr
      simp only [Option.map] at hr
      have h := Option.some.inj hr
      subst h
      exact hf r0 (hm k r0 hl)
  · rw [lookupA_modifyA_ne _ _ _ _ hk] at hr
    exact hm k r hr

theorem progOK_read_one_line (ts pid : String) (s : AppState) (o : String)
    (hs : progOK s) : progOK (read_one_line ts pid s o) := by
  intro k r hr
  rcases read_one_line_cases ts pid s o k with h | ⟨r0, hr0, h⟩
  · rw [h] at hr
    exact hs k r hr
  · rw [h] at hr
    have heq := Option.some.inj hr
    subst heq
    exact classify_line_progress_bound r0 (strStrip o) (hs k r0 hr0).1 (hs k r0 hr0).2

theorem progOK_foldl_read (ts pid : String) (outputs : List String) :
    ∀ s : AppState, progOK s → progOK (outputs.foldl (read_one_line ts pid) s) := by
  induction outputs with
  | nil => intro s hs; exact hs
  | cons o t ih =>
    intro s hs
    rw [List.foldl_cons]
    exact ih _ (progOK_read_one_line ts pid s o hs)

theorem progOK_init_job (s : AppState) (pid : String) (info : ProcessInfo) (t0 : Nat)
    (hs : progOK s) : progOK (init_job s pid info t0) := by
  show progOKl (init_job s pid info t0).processes
  rw [init_job_processes]
  exact progOKl_setA _ _ _ (by constructor <;> simp [freshRecord]) hs

theorem progOK_start_and_read (tstamp : String) (t0 : Nat) (s : AppState) (pid : String)
    (info : ProcessInfo) (outputs : List String) (hs : progOK s) :
    progOK (start_and_read tstamp t0 s pid info outputs) := by
  unfold start_and_read
  apply progOK_foldl_read
  show progOKl (appendLog (init_job s pid info t0) pid _).processes
  rw [appendLog_processes]
  exact progOK_init_job s pid info t0 hs

/-! ## Lemmas: frame over other job ids -/

theorem read_one_line_ne (ts pid : String) (s : AppState) (o k : String) (hk : k ≠ pid) :
    lookupA k (read_one_line ts pid s o).processes = lookupA k s.processes := by
  unfold read_one_line
  by_cases ho : o = ""
  · simp [ho]
  · simp only [ho, if_false]
    rw [parse_lookup_ne _ _ _ _ hk, appendLog_processes]

theorem foldl_read_ne (ts pid k : String) (hk : k ≠ pid) (outputs : List String) :
    ∀ s : AppState,
      lookupA k (outputs.foldl (read_one_line ts pid) s).processes
        = lookupA k s.processes := by
  induction outputs with
  | nil => intro s; rfl
  | cons o t ih =>
    intro s
    rw [List.foldl_cons, ih, read_one_line_ne _ _ _ _ _ hk]

theorem start_and_read_ne (tstamp : String) (t0 : Nat) (s : AppState) (pid : String)
    (info : ProcessInfo) (outputs : List String) (k : String) (hk : k ≠ pid) :
    lookupA k (start_and_read tstamp t0 s pid info outputs).processes
      = lookupA k s.processes := by
  unfold start_and_read
  rw [foldl_read_ne _ _ _ hk, appendLog_processes, init_job_processes,
    lookupA_setA_ne _ _ _ _ hk]

/-- The worker only ever touches the record of its own job id: every other
key's record is exactly what it was before the run. -/
theorem run_airsenal_other_keys (tstamp : String) (t0 t1 : Nat) (s : AppState)
    (pid : String) (res : ProcResult) (k : String) (hk : k ≠ pid) :
    lookupA k (run_airsenal_process tstamp t0 t1 s pid res).processes
      = lookupA k s.processes := by
  unfold run_airsenal_process
  cases hcat : lookupA pid AIRSENAL_PROCESSES with
  | none => rfl
  | some info =>
    cases res with
    | exits outputs code =>
      by_cases hc : code = 0
      · simp only [hc, if_true, appendLog_processes]
        rw [lookupA_modifyA_ne _ _ _ _ hk, lookupA_modifyA_ne _ _ _ _ hk,
          start_and_read_ne _ _ _ _ _ _ _ hk]
      · simp only [hc, if_false, appendLog_processes]
        rw [lookupA_modifyA_ne _ _ _ _ hk, lookupA_modifyA_ne _ _ _ _ hk,
          start_and_read_ne _ _ _ _ _ _ _ hk]
    | raises outputs msg =>
      simp only [appendLog_processes]
      rw [lookupA_modifyA_ne _ _ _ _ hk, start_and_read_ne _ _ _ _ _ _ _ hk]

theorem progOK_run_airsenal (tstamp : String) (t0 t1 : Nat) (s : AppState)
    (pid : String) (res : ProcResult) (hs : progOK s) :
    progOK (run_airsenal_process tstamp t0 t1 s pid res) := by
  intro k r hr
  by_cases hk : k = pid
  · subst hk
    cases res with
    | exits outputs code =>
      cases hcat : lookupA k AIRSENAL_PROCESSES with
      | none =>
        have hrun : run_airsenal_process tstamp t0 t1 s k (.exits outputs code) = s := by
          unfold run_airsenal_process
          rw [hcat]
        rw [hrun] at hr
        exact hs k r hr
      | some info =>
        obtain ⟨rmid, hmid, hfin⟩ := run_exits_lookup tstamp t0 t1 s k info outputs code hcat
        rw [hfin] at hr
        have heq := Option.some.inj hr
        subst heq
        by_cases hc : code = 0
        · rw [if_pos hc]
          exact ⟨(by decide : (0 : Int) ≤ 100), (by decide : (100 : Int) ≤ 100)⟩
        · rw [if_neg hc]
          exact ⟨(by decide : (0 : Int) ≤ 0), (by decide : (0 : Int) ≤ 100)⟩
    | raises outputs msg =>
      cases hcat : lookupA k AIRSENAL_PROCESSES with
      | none =>
        have hrun : run_airsenal_process tstamp t0 t1 s k (.raises outputs msg) = s := by
          unfold run_airsenal_process
          rw [hcat]
        rw [hrun] at hr
        exact hs k r hr
      | some info =>
        obtain ⟨rmid, hmid, hfin⟩ := run_raises_lookup tstamp t0 t1 s k info outputs msg hcat
        rw [hfin] at hr
        have heq := Option.some.inj hr
        subst heq
        exact ⟨(by decide : (0 : Int) ≤ 0), (by decide : (0 : Int) ≤ 100)⟩
  · rw [run_airsenal_other_keys _ _ _ _ _ _ _ hk] at hr
    exact hs k r hr

theorem lookupA_map_snd {α β : Type} (m : List (String × α)) (k : String) (f : α → β) :
    lookupA k (m.map (fun p => (p.1, f p.2))) = (lookupA k m).map f := by
  induction m with
  | nil => rfl
  | cons p t ih => by_cases h : p.1 = k <;> simp [lookupA, h, ih]

/-! ## Claim C1 -/

/-- C1: for every dispatched job whose external command is spawned
successfully and exits, exit code 0 leaves the job record in the
`'Completed successfully'` status with progress forced to 100; a non-zero
exit code leaves it in the `'Failed with code N'` status, whose message
contains the exit code (and resets progress to 0); `end_time` is set. -/
theorem run_airsenal_process_exit_code_spec (tstamp : String) (t0 t1 : Nat)
    (s : AppState) (pid : String) (info : ProcessInfo) (outputs : List String)
    (code : Int) (hcat : lookupA pid AIRSENAL_PROCESSES = some info) :
    ∃ r, lookupA pid
        (run_airsenal_process tstamp t0 t1 s pid (.exits outputs code)).processes = some r
      ∧ (code = 0 → r.status = "Completed successfully" ∧ r.progress = 100)
      ∧ (code ≠ 0 → r.status = "Failed with code " ++ toString code
          ∧ strContains r.status (toString code) = true ∧ r.progress = 0)
      ∧ r.end_time = some t1 := by
  obtain ⟨rmid, hmid, hfin⟩ := run_exits_lookup tstamp t0 t1 s pid info outputs code hcat
  by_cases hc : code = 0
  · rw [if_pos hc] at hfin
    exact ⟨_, hfin, fun _ => ⟨rfl, rfl⟩, fun hne => absurd hc hne, rfl⟩
  · rw [if_neg hc] at hfin
    exact ⟨_, hfin, fun h0 => absurd h0 hc,
      fun _ => ⟨rfl, strContains_append_right _ _, rfl⟩, rfl⟩

/-- Witness for C1 at the `check_data` action with exit code 2. -/
theorem run_airsenal_process_exit_code_spec_witness :
    lookupA "check_data" AIRSENAL_PROCESSES = some ⟨"Check Data"⟩
    ∧ ∃ r, lookupA "check_data"
        (run_airsenal_process "09:00:00" 0 1 initialAppState "check_data"
          (.exits ["checking\n"] 2)).processes = some r
      ∧ ((2 : Int) = 0 → r.status = "Completed successfully" ∧ r.progress = 100)
      ∧ ((2 : Int) ≠ 0 → r.status = "Failed with code " ++ toString (2 : Int)
          ∧ strContains r.status (toString (2 : Int)) = true ∧ r.progress = 0)
      ∧ r.end_time = some 1 :=
  ⟨rfl, run_airsenal_process_exit_code_spec "09:00:00" 0 1 initialAppState "check_data"
    ⟨"Check Data"⟩ ["checking\n"] 2 rfl⟩

/-! ## Claim C2 -/

/-- C2 counterexample: no timeout watcher exists. After the worker has read
1000 lines from a child process that has not exited, the job is still in
the `'Running...'` status — it would remain so for any number of lines, for
any wall-clock duration; nothing in the code ever assigns a TimedOut state
or kills the process, and no timeout is configured for any action. -/
theorem no_timeout_watcher_counterexample :
    (lookupA "check_data"
        (start_and_read "12:00:00" 0 initialAppState "check_data" ⟨"Check Data"⟩
          (List.replicate 1000 "still working\n")).processes).map JobRecord.status
      = some "Running..." :=
  start_and_read_status "12:00:00" 0 initialAppState "check_data" ⟨"Check Data"⟩ _

/-- C2 (amended): there is no timeout watcher and no configured timeout.
A job leaves the `'Running...'` status only when its child process exits
(Completed/Failed) or an exception is raised (Error); while the worker is
still reading, the status is always `'Running...'` no matter how many
lines have been read, and the only terminal statuses ever assigned are
`'Completed successfully'`, `'Failed with code N'` and `'Error: msg'` —
never a TimedOut state. -/
theorem run_airsenal_process_no_timeout_terminal (tstamp : String) (t0 t1 : Nat)
    (s : AppState) (pid : String) (info : ProcessInfo) (res : ProcResult)
    (hcat : lookupA pid AIRSENAL_PROCESSES = some info) :
    (∀ outputs : List String,
        (lookupA pid (start_and_read tstamp t0 s pid info outputs).processes).map
          JobRecord.status = some "Running...")
    ∧ ∃ r, lookupA pid (run_airsenal_process tstamp t0 t1 s pid res).processes = some r
        ∧ r.end_time = some t1
        ∧ r.status ≠ "Running..."
        ∧ (r.status = "Completed successfully"
            ∨ (∃ c : Int, r.status = "Failed with code " ++ toString c)
            ∨ ∃ m : String, r.status = "Error: " ++ m) := by
  refine ⟨fun outputs => start_and_read_status tstamp t0 s pid info outputs, ?_⟩
  cases res with
  | exits outputs code =>
    obtain ⟨rmid, hmid, hfin⟩ := run_exits_lookup tstamp t0 t1 s pid info outputs code hcat
    by_cases hc : code = 0
    · rw [if_pos hc] at hfin
      exact ⟨_, hfin, rfl,
        (by decide : ("Completed successfully" : String) ≠ "Running..."), Or.inl rfl⟩
    · rw [if_neg hc] at hfin
      exact ⟨_, hfin, rfl, failed_status_ne_running code, Or.inr (Or.inl ⟨code, rfl⟩)⟩
  | raises outputs msg =>
    obtain ⟨rmid, hmid, hfin⟩ := run_raises_lookup tstamp t0 t1 s pid info outputs msg hcat
    exact ⟨_, hfin, rfl, error_status_ne_running msg, Or.inr (Or.inr ⟨msg, rfl⟩)⟩

/-- Witness for the amended C2 at the `check_data` action. -/
theorem run_airsenal_process_no_timeout_terminal_witness :
    lookupA "check_data" AIRSENAL_PROCESSES = some ⟨"Check Data"⟩
    ∧ ((∀ outputs : List String,
          (lookupA "check_data"
            (start_and_read "12:00:00" 0 initialAppState "check_data" ⟨"Check Data"⟩
              outputs).processes).map JobRecord.status = some "Running...")
        ∧ ∃ r, lookupA "check_data"
              (run_airsenal_process "12:00:00" 0 5 initialAppState "check_data"
                (.exits ["a\n"] 0)).processes = some r
            ∧ r.end_time = some 5
            ∧ r.status ≠ "Running..."
            ∧ (r.status = "Completed successfully"
                ∨ (∃ c : Int, r.status = "Failed with code " ++ toString c)
                ∨ ∃ m : String, r.status = "Error: " ++ m)) :=
  ⟨rfl, run_airsenal_process_no_timeout_terminal "12:00:00" 0 5 initialAppState
    "check_data" ⟨"Check Data"⟩ (.exits ["a\n"] 0) rfl⟩

/-! ## Claim C7 -/

/-- C7: any exception raised while spawning the external command or
reading its output leaves the job in the terminal `'Error: msg'` status
with the exception message captured, the end timestamp set, and the job is
never left in the `'Running...'` status. -/
theorem run_airsenal_process_exception_terminal (tstamp : String) (t0 t1 : Nat)
    (s : AppState) (pid : String) (info : ProcessInfo) (outputs : List String)
    (msg : String) (hcat : lookupA pid AIRSENAL_PROCESSES = some info) :
    ∃ r, lookupA pid
        (run_airsenal_process tstamp t0 t1 s pid (.raises outputs msg)).processes = some r
      ∧ r.status = "Error: " ++ msg
      ∧ r.end_time = some t1
      ∧ r.status ≠ "Running..." := by
  obtain ⟨rmid, hmid, hfin⟩ := run_raises_lookup tstamp t0 t1 s pid info outputs msg hcat
  exact ⟨_, hfin, rfl, rfl, error_status_ne_running msg⟩

/-- Witness for C7: a spawn failure (no output read) for `check_data`. -/
theorem run_airsenal_process_exception_terminal_witness :
    lookupA "check_data" AIRSENAL_PROCESSES = some ⟨"Check Data"⟩
    ∧ ∃ r, lookupA "check_data"
        (run_airsenal_process "09:30:00" 3 4 initialAppState "check_data"
          (.raises [] "No such file or directory")).processes = some r
      ∧ r.status = "Error: " ++ "No such file or directory"
      ∧ r.end_time = some 4
      ∧ r.status ≠ "Running..." :=
  ⟨rfl, run_airsenal_process_exception_terminal "09:30:00" 3 4 initialAppState
    "check_data" ⟨"Check Data"⟩ [] "No such file or directory" rfl⟩

/-! ## Claim C3 -/

/-- The state after a first, completed `check_data` job. -/
def firstRunState : AppState :=
  run_airsenal_process "08:00:00" 0 1 initialAppState "check_data" (.exits [] 0)

/-- The state after re-dispatching `check_data` once the first job is
terminal: the second run's worker writes under the same id. -/
def secondRunState : AppState :=
  run_airsenal_process "08:05:00" 10 11 firstRunState "check_data" (.exits [] 0)

/-- C3 counterexample: re-dispatching `check_data` after its prior job is
terminal succeeds, but the new job does NOT get an id distinct from the
prior one — it is keyed by the same action name, and its worker simply
overwrites the prior record (one single entry, now carrying the second
run's start time). -/
theorem redispatch_reuses_id_counterexample :
    run_process firstRunState "check_data"
        = (.statusMsg "success" "Check Data started", firstRunState, true)
      ∧ secondRunState.processes.length = 1
      ∧ lookupA "check_data" secondRunState.processes
          = some { status := "Completed successfully", progress := 100,
                   current_step := "Check Data completed",
                   start_time := 10, end_time := some 11 }
      ∧ lookupA "check_data" firstRunState.processes
          = some { status := "Completed successfully", progress := 100,
                   current_step := "Check Data completed",
                   start_time := 0, end_time := some 1 } := by
  refine ⟨?_, ?_, ?_, ?_⟩ <;> decide

/-- C3 (amended): dispatching an action whose job is `'Running...'` is
rejected and starts no worker; dispatching once the job is no longer
Running succeeds — but the new job reuses the same job id (the action
name): the worker writes only under that id, leaving every other id's
record untouched, so at most one record per action ever exists and the
prior record is overwritten rather than a distinct id being allocated. -/
theorem run_process_idempotence_amended (s : AppState) (pid : String)
    (info : ProcessInfo) (hcat : lookupA pid AIRSENAL_PROCESSES = some info) :
    (is_running s pid = true →
        run_process s pid = (.statusMsg "error" "Process already running", s, false))
    ∧ (is_running s pid = false →
        run_process s pid = (.statusMsg "success" (info.name ++ " started"), s, true))
    ∧ (∀ (tstamp : String) (t0 t1 : Nat) (res : ProcResult) (k : String), k ≠ pid →
        lookupA k (run_airsenal_process tstamp t0 t1 s pid res).processes
          = lookupA k s.processes) := by
  refine ⟨?_, ?_, fun tstamp t0 t1 res k hk =>
    run_airsenal_other_keys tstamp t0 t1 s pid res k hk⟩
  · intro h
    unfold run_process
    rw [hcat, h]
    rfl
  · intro h
    unfold run_process
    rw [hcat, h]
    rfl

/-- Witness for the amended C3 at the completed `check_data` state. -/
theorem run_process_idempotence_amended_witness :
    lookupA "check_data" AIRSENAL_PROCESSES = some ⟨"Check Data"⟩
    ∧ is_running firstRunState "check_data" = false
    ∧ run_process firstRunState "check_data"
        = (.statusMsg "success" ((⟨"Check Data"⟩ : ProcessInfo).name ++ " started"),
           firstRunState, true) := by
  refine ⟨rfl, by decide, ?_⟩
  exact (run_process_idempotence_amended firstRunState "check_data" ⟨"Check Data"⟩
    rfl).2.1 (by decide)

/-! ## Claim C4 -/

/-- A state holding one freshly initialised `check_data` record. -/
def regressionDemoState : AppState :=
  { processes := [("check_data",
      { status := "Running...", progress := 0, current_step := "Starting Check Data...",
        start_time := 0, end_time := none })],
    output_logs := [("check_data", [])] }

/-- C4 counterexample: progress is NOT monotonically non-decreasing while
Running, and a terminal "complete" signal does not protect it: a `done`
line sets progress to 100, and a subsequent line containing `starting`
regresses it to 5. -/
theorem progress_regression_counterexample :
    (lookupA "check_data"
        (parse_process_output regressionDemoState "check_data" "done").processes).map
      JobRecord.progress = some 100
    ∧ (lookupA "check_data"
        (parse_process_output
          (parse_process_output regressionDemoState "check_data" "done")
          "check_data" "starting next pass").processes).map
      JobRecord.progress = some 5 := by
  refine ⟨?_, ?_⟩ <;> decide

/-- C4 (amended): each classified line sets the job's progress to the
matched keyword's clamped value `min p 100` — a value in `[0, 100]` that is
independent of the previous progress, so progress may regress (including
after a complete signal); lines matching no keyword leave the record
unchanged. -/
theorem parse_process_output_progress_amended (s : AppState) (pid line : String)
    (r : JobRecord) (hr : lookupA pid s.processes = some r) :
    lookupA pid (parse_process_output s pid line).processes = some (classify_line r line)
    ∧ ((classify_line r line).progress = r.progress
        ∨ ∃ kv, kv ∈ progress_keywords ∧ strContains (strLower line) kv.1 = true
            ∧ (classify_line r line).progress = min kv.2 100
            ∧ 0 ≤ min kv.2 100 ∧ min kv.2 100 ≤ 100) := by
  constructor
  · rw [parse_lookup_self, hr]
    rfl
  · rcases classify_line_progress r line with h | ⟨kv, hmem, hc, h⟩
    · exact Or.inl h
    · have hb := keywords_bound kv hmem
      exact Or.inr ⟨kv, hmem, hc, h, le_min hb.1 (by norm_num), min_le_right _ _⟩

/-- Witness for the amended C4 on the fresh `check_data` record. -/
theorem parse_process_output_progress_amended_witness :
    lookupA "check_data" regressionDemoState.processes
        = some { status := "Running...", progress := 0,
                 current_step := "Starting Check Data...",
                 start_time := 0, end_time := none }
    ∧ lookupA "check_data"
        (parse_process_output regressionDemoState "check_data" "done").processes
        = some (classify_line
            { status := "Running...", progress := 0,
              current_step := "Starting Check Data...",
              start_time := 0, end_time := none } "done") :=
  ⟨rfl, (parse_process_output_progress_amended regressionDemoState "check_data" "done"
    _ rfl).1⟩

/-! ## Claim C5 -/

/-- C5: dispatching an unknown action, or an action whose job is currently
`'Running...'`, is rejected synchronously with an error response; the
global state is returned unchanged (no job record is created) and no
worker thread is started. -/
theorem run_process_rejects_sync (s : AppState) (pid : String)
    (h : lookupA pid AIRSENAL_PROCESSES = none ∨ is_running s pid = true) :
    ∃ m, run_process s pid = (ApiResponse.statusMsg "error" m, s, false) := by
  unfold run_process
  cases hcat : lookupA pid AIRSENAL_PROCESSES with
  | none => exact ⟨"Invalid process ID", rfl⟩
  | some info =>
    rcases h with h | h
    · rw [hcat] at h
      cases h
    · rw [h]
      exact ⟨"Process already running", rfl⟩

/-- Witness for C5: an unknown action id is rejected. -/
theorem run_process_rejects_sync_witness :
    (lookupA "not_an_action" AIRSENAL_PROCESSES = none
      ∨ is_running initialAppState "not_an_action" = true)
    ∧ ∃ m, run_process initialAppState "not_an_action"
        = (ApiResponse.statusMsg "error" m, initialAppState, false) :=
  ⟨Or.inl rfl, run_process_rejects_sync initialAppState "not_an_action" (Or.inl rfl)⟩

/-! ## Claim C6 -/

/-- C6 counterexample: a log query for a job id that was never created
does not return a NotFound (or any) error — it returns the ordinary
successful response `{"logs": []}`, indistinguishable from a job with an
empty log. -/
theorem get_process_logs_unknown_not_error :
    get_process_logs initialAppState "no_such_job" = ApiResponse.logsOnly []
    ∧ is_error_response (get_process_logs initialAppState "no_such_job") = false :=
  ⟨rfl, rfl⟩

/-- C6 (amended): a log query never crashes and never reports an error:
for every state and id it returns a `{"logs": [...]}` response, and for an
unknown (never created, or cleared) id that response is `{"logs": []}`. -/
theorem get_process_logs_total (s : AppState) (pid : String) :
    (∃ ls, get_process_logs s pid = ApiResponse.logsOnly ls)
    ∧ is_error_response (get_process_logs s pid) = false
    ∧ (lookupA pid s.output_logs = none →
        get_process_logs s pid = ApiResponse.logsOnly []) := by
  unfold get_process_logs
  cases h : lookupA pid s.output_logs with
  | none => exact ⟨⟨[], rfl⟩, rfl, fun _ => rfl⟩
  | some logs => exact ⟨⟨lastN 50 logs, rfl⟩, rfl, fun hn => by cases hn⟩

/-- Witness for the amended C6 on an id that was never created. -/
theorem get_process_logs_total_witness :
    lookupA "ghost_job" initialAppState.output_logs = none
    ∧ get_process_logs initialAppState "ghost_job" = ApiResponse.logsOnly [] :=
  ⟨rfl, (get_process_logs_total initialAppState "ghost_job").2.2 rfl⟩

/-! ## Claim C8 -/

/-- C8: for every job and every child-process behaviour (any sequence of
output lines, any exit code or exception), progress stays an integer in
`[0, 100]`: this holds at every intermediate point of the read loop and
after the worker finalises the job, for every record in the state. -/
theorem run_airsenal_process_progress_range (tstamp : String) (t0 t1 : Nat)
    (s : AppState) (pid : String) (res : ProcResult) (hs : progOK s) :
    progOK (run_airsenal_process tstamp t0 t1 s pid res)
    ∧ ∀ (info : ProcessInfo) (outputs : List String),
        progOK (start_and_read tstamp t0 s pid info outputs) :=
  ⟨progOK_run_airsenal tstamp t0 t1 s pid res hs,
   fun info outputs => progOK_start_and_read tstamp t0 s pid info outputs hs⟩

/-- Witness for C8 from the empty state. -/
theorem run_airsenal_process_progress_range_witness :
    progOK initialAppState
    ∧ (progOK (run_airsenal_process "10:00:00" 0 1 initialAppState "check_data"
          (.exits ["done\n"] 0))
        ∧ ∀ (info : ProcessInfo) (outputs : List String),
            progOK (start_and_read "10:00:00" 0 initialAppState "check_data"
              info outputs)) :=
  have h0 : progOK initialAppState := fun _ _ h => Option.noConfusion h
  ⟨h0, run_airsenal_process_progress_range "10:00:00" 0 1 initialAppState "check_data"
    (.exits ["done\n"] 0) h0⟩

/-! ## Claim C9 -/

/-- C9: clearing all logs empties every job's output log — a subsequent
log query for any id returns no lines — while leaving every job record
(status, progress, current step, start and end timestamps) unchanged,
including for jobs still Running. -/
theorem clear_all_logs_frame (s : AppState) :
    (clear_all_logs s).1.processes = s.processes
    ∧ (∀ pid, get_process_logs (clear_all_logs s).1 pid = ApiResponse.logsOnly [])
    ∧ (clear_all_logs s).2 = ApiResponse.statusMsg "success" "All logs cleared" :=
  ⟨rfl, fun _ => rfl, rfl⟩

/-! ## Claim C10 -/

/-- C10: the all-status snapshot returns at most the last 20 retained log
lines per job while the per-job log endpoint returns at most the last 50;
both preserve retention order (each is a suffix, hence an in-order
sublist, of the retained log), so whenever more than 20 lines are retained
the snapshot reader observes strictly fewer lines than are retained. -/
theorem log_endpoints_truncation (s : AppState) (pid : String) (logs : List String)
    (h : lookupA pid s.output_logs = some logs) :
    lookupA pid (get_all_status s).2 = some (lastN 20 logs)
    ∧ (lastN 20 logs).length ≤ 20
    ∧ List.Sublist (lastN 20 logs) logs
    ∧ get_process_logs s pid = ApiResponse.logsOnly (lastN 50 logs)
    ∧ (lastN 50 logs).length ≤ 50
    ∧ List.Sublist (lastN 50 logs) logs
    ∧ (20 < logs.length → (lastN 20 logs).length < logs.length) := by
  refine ⟨?_, length_lastN 20 logs, List.drop_sublist _ _, ?_,
    length_lastN 50 logs, List.drop_sublist _ _, ?_⟩
  · show lookupA pid (s.output_logs.map (fun p => (p.1, lastN 20 p.2))) = _
    rw [lookupA_map_snd, h]
    rfl
  · unfold get_process_logs
    rw [h]
  · intro hlen
    simp only [lastN, List.length_drop]
    omega

/-- Witness for C10 on a job retaining 30 log lines. -/
theorem log_endpoints_truncation_witness :
    lookupA "check_data"
        (AppState.mk [] [("check_data", List.replicate 30 "line")]).output_logs
      = some (List.replicate 30 "line")
    ∧ lookupA "check_data"
        (get_all_status (AppState.mk [] [("check_data", List.replicate 30 "line")])).2
      = some (lastN 20 (List.replicate 30 "line"))
    ∧ (lastN 20 (List.replicate 30 "line")).length = 20
    ∧ (20 < (List.replicate 30 "line").length →
        (lastN 20 (List.replicate 30 "line")).length
          < (List.replicate 30 "line").length) :=
  have hthm := log_endpoints_truncation
    (AppState.mk [] [("check_data", List.replicate 30 "line")]) "check_data"
    (List.replicate 30 "line") rfl
  ⟨rfl, hthm.1, by decide, hthm.2.2.2.2.2.2⟩

end WebApp
